import Mathlib

/-!
Verification of the processor core of SuperYbc/riscv-isa-sim
(src/riscv/processor.cc), shallowly embedded in Lean 4.

The processor state machine is translated from `processor.cc`.  The status
register bit layout, the microthread ceiling and the interrupt line numbers
are declared in the processor header, which is not part of the sources being
verified; those constants are modelled from the specification's description
of the status word (supervisor, previous-supervisor, traps-enabled, 64-bit
selectors, extension enables, interrupt mask, virtual memory).  All machine
words are `Nat` with explicit `% 2^32` / `% 2^64` where the C code wraps.
-/

namespace Riscv

/-- Modelled from the spec: status-word bit for traps-enabled (`SR_ET`),
declared in the processor header outside the verified sources. -/
def SR_ET : Nat := 0x1

/-- Modelled from the spec: floating-point-enabled bit (`SR_EF`). -/
def SR_EF : Nat := 0x2

/-- Modelled from the spec: vector-enabled bit (`SR_EV`). -/
def SR_EV : Nat := 0x4

/-- Modelled from the spec: compressed-instruction-enabled bit (`SR_EC`). -/
def SR_EC : Nat := 0x8

/-- Modelled from the spec: previous-supervisor bit (`SR_PS`). -/
def SR_PS : Nat := 0x10

/-- Modelled from the spec: supervisor-mode bit (`SR_S`). -/
def SR_S : Nat := 0x20

/-- Modelled from the spec: 64-bit-mode-in-user bit (`SR_UX`). -/
def SR_UX : Nat := 0x40

/-- Modelled from the spec: 64-bit-mode-in-supervisor bit (`SR_SX`). -/
def SR_SX : Nat := 0x80

/-- Modelled from the spec: eight-bit interrupt mask field (`SR_IM`). -/
def SR_IM : Nat := 0xFF00

/-- Modelled from the spec: shift amount of the interrupt-mask field. -/
def SR_IM_SHIFT : Nat := 8

/-- Modelled from the spec: virtual-memory-enabled bit (`SR_VM`). -/
def SR_VM : Nat := 0x10000

/-- The union of all architecturally defined status-word bits; `SR_ZERO`
in the header is its 32-bit complement (the reserved-zero bits). -/
def SR_DEFINED : Nat :=
  SR_ET ||| SR_EF ||| SR_EV ||| SR_EC ||| SR_PS ||| SR_S ||| SR_UX |||
  SR_SX ||| SR_IM ||| SR_VM

/-- Modelled from the spec: the reserved-zero mask of the status word,
complement (within 32 bits) of the defined bits. -/
def SR_ZERO : Nat := 0xFFFFFFFF ^^^ SR_DEFINED

/-- 32-bit complement, as produced by C `~m` on a `uint32_t` mask. -/
def NOT32 (m : Nat) : Nat := 0xFFFFFFFF ^^^ m

/-- Modelled from the spec: reserved-zero mask of the floating-point status
word (`FSR_ZERO`); its exact value is irrelevant to the claims. -/
def FSR_ZERO : Nat := 0xFFFFFF00

/-- Modelled from the spec: the hard microthread-count ceiling (`MAX_UTS`)
from the processor header; the claims hold for any positive value. -/
def MAX_UTS : Nat := 2048

/-- Modelled from the spec: the trap code of interrupt line 0
(`trap_irq0`, the base-interrupt-code). -/
def trap_irq0 : Nat := 16

/-- Modelled from the spec: the interrupt line of the timer (`TIMER_IRQ`). -/
def TIMER_IRQ : Nat := 7

/-- Modelled from the spec: the interrupt line used for inter-processor
interrupts (`IPI_IRQ`). -/
def IPI_IRQ : Nat := 6

/-- Modelled from the spec: the build-time feature flags
(`RISCV_ENABLE_64BIT`, `RISCV_ENABLE_FPU`, `RISCV_ENABLE_RVC`,
`RISCV_ENABLE_VEC`) gating status-word bits, represented as a capability
set as the spec's design notes direct. -/
structure Caps where
  ext64 : Bool
  fpu : Bool
  rvc : Bool
  vec : Bool

/-- The processor state of `processor_t` (processor.cc).  The register files
are total maps from register index to value; the memory-management unit's
observable flags and its reported fault address are included because
`set_sr` writes the former and `take_trap` reads the latter. -/
structure State where
  pc : Nat
  epc : Nat
  badvaddr : Nat
  evec : Nat
  cause : Nat
  pcr_k0 : Nat
  pcr_k1 : Nat
  sr : Nat
  fsr : Nat
  count : Nat
  compare : Nat
  interrupts_pending : Nat
  cycle : Nat
  run : Bool
  xprlen : Nat
  XPR : Nat → Nat
  FPR : Nat → Nat
  vecbanks : Nat
  vecbanks_count : Nat
  vlmax : Int
  vl : Int
  nxfpr_bank : Nat
  nxpr_use : Nat
  nfpr_use : Nat
  utidx : Int
  mmu_vm_enabled : Bool
  mmu_supervisor : Bool
  mmu_badvaddr : Nat

/-- The stored status word produced by `processor_t::set_sr` (lines 76–91):
reserved-zero bits are masked off and, for each build feature that is
absent, the corresponding enable bits are cleared. -/
def sr_store (c : Caps) (v : Nat) : Nat :=
  let s0 := v &&& NOT32 SR_ZERO
  let s1 := if c.ext64 then s0 else s0 &&& NOT32 (SR_SX ||| SR_UX)
  let s2 := if c.fpu then s1 else s1 &&& NOT32 SR_EF
  let s3 := if c.rvc then s2 else s2 &&& NOT32 SR_EC
  if c.vec then s3 else s3 &&& NOT32 SR_EV

/-- `processor_t::set_sr` (lines 76–100): store the masked status word,
propagate the virtual-memory and supervisor bits to the MMU, and recompute
the integer register width from the mode bits. -/
def set_sr (c : Caps) (s : State) (v : Nat) : State :=
  let srv := sr_store c v
  { s with
    sr := srv
    mmu_vm_enabled := decide (srv &&& SR_VM ≠ 0)
    mmu_supervisor := decide (srv &&& SR_S ≠ 0)
    xprlen :=
      if (if srv &&& SR_S ≠ 0 then srv &&& SR_SX else srv &&& SR_UX) ≠ 0
      then 64 else 32 }

/-- `processor_t::set_fsr` (lines 102–105). -/
def set_fsr (s : State) (v : Nat) : State :=
  { s with fsr := v &&& NOT32 FSR_ZERO }

/-- `processor_t::reset` (lines 38–74).  The pending-interrupt word is not
touched by `reset` in the source and is therefore preserved here. -/
def reset (c : Caps) (s : State) : State :=
  let s1 := set_sr c { s with run := false } (SR_S ||| SR_SX ||| SR_ET ||| SR_IM)
  let s2 := { s1 with
    evec := 0x2000
    XPR := fun _ => 0
    FPR := fun _ => 0
    pc := 0
    epc := 0
    badvaddr := 0
    cause := 0
    pcr_k0 := 0
    pcr_k1 := 0
    count := 0
    compare := 0
    cycle := 0 }
  let s3 := set_fsr s2 0
  { s3 with
    vecbanks := 0xff
    vecbanks_count := 8
    utidx := -1
    vlmax := 32
    vl := 0
    nxfpr_bank := 256
    nxpr_use := 32
    nfpr_use := 32 }

/-- `processor_t::vcfg` (lines 107–115): recompute the maximum vector
length from the per-element register demand and clamp it to the
microthread ceiling. -/
def vcfg (s : State) : State :=
  let raw : Nat :=
    if s.nxpr_use + s.nfpr_use < 2 then
      s.nxfpr_bank * s.vecbanks_count
    else
      (s.nxfpr_bank / (s.nxpr_use + s.nfpr_use - 1)) * s.vecbanks_count
  { s with vlmax := min (Int.ofNat raw) (Int.ofNat MAX_UTS) }

/-- `processor_t::setvl` (lines 117–120). -/
def setvl (s : State) (vlapp : Int) : State :=
  { s with vl := min s.vlmax vlapp }

/-- One scan step of the priority encoder: with enough fuel, find the
index of the lowest set bit. -/
def lowBitF : Nat → Nat → Nat
  | 0, _ => 0
  | fuel + 1, n => if n % 2 = 1 then 0 else lowBitF fuel (n / 2) + 1

/-- Index of the lowest set bit of a nonzero number; this is the line the
priority-encoder loop of `take_interrupt` selects (`n` itself is ample
fuel, since the lowest set bit of a positive `n` has index below `n`). -/
def lowBit (n : Nat) : Nat := lowBitF n n

/-- `processor_t::take_interrupt` (lines 122–131) as a pure signal: the
pending lines are masked by the interrupt-mask field of the status word,
and when the result is nonzero while traps are enabled, the trap code of
the lowest asserted line is signalled; otherwise nothing happens (the C
function only throws, mutating no state). -/
def take_interrupt (pending sr : Nat) : Option Nat :=
  let interrupts := pending &&& ((sr &&& SR_IM) >>> SR_IM_SHIFT)
  if interrupts ≠ 0 ∧ sr &&& SR_ET ≠ 0 then
    some (trap_irq0 + lowBit interrupts)
  else
    none

/-- `processor_t::take_trap` (lines 204–216): enter supervisor mode, copy
the old supervisor bit into the previous-supervisor bit, disable traps,
record cause, epc and the MMU's fault address, and vector the pc. -/
def take_trap (c : Caps) (s : State) (t : Nat) : State :=
  let s1 := set_sr c s
    ((((s.sr &&& NOT32 SR_ET) ||| SR_S) &&& NOT32 SR_PS) |||
      (if s.sr &&& SR_S ≠ 0 then SR_PS else 0))
  { s1 with
    cause := t
    epc := s.pc
    pc := s.evec
    badvaddr := s.mmu_badvaddr }

/-- `processor_t::deliver_ipi` (lines 218–222). -/
def deliver_ipi (s : State) : State :=
  { s with
    interrupts_pending := s.interrupts_pending ||| (1 <<< IPI_IRQ)
    run := true }

/-- The timer-crossing condition of `processor_t::step` (line 200):
`old_count < compare && uint64_t(old_count) + i >= compare`, with the
64-bit sum wrapping as in C. -/
def timer_fires (old compare i : Nat) : Prop :=
  old < compare ∧ compare ≤ (old + i) % 2 ^ 64

instance (old compare i : Nat) : Decidable (timer_fires old compare i) :=
  inferInstanceAs (Decidable (_ ∧ _))

/-- The epilogue of `processor_t::step` (lines 195–201): commit `i`
executed instructions to the cycle and instruction counters (both wrap at
their C widths) and assert the timer interrupt line on an upward crossing
of the compare threshold. -/
def timer_upd (s : State) (i : Nat) : State :=
  { s with
    cycle := (s.cycle + i) % 2 ^ 64
    count := (s.count + i) % 2 ^ 32
    interrupts_pending :=
      if timer_fires s.count s.compare i then
        s.interrupts_pending ||| (1 <<< TIMER_IRQ)
      else
        s.interrupts_pending }

/-- The interrupt-check/trap-delivery loop of `processor_t::step`
(lines 139–193) specialised to a zero instruction budget: each iteration
performs the interrupt check; a signalled trap is delivered and counted
(the `catch` increments `i`) and the loop retries; otherwise the loop
breaks.  `fuel` bounds the iterations; two iterations are exact because
trap delivery disables traps (proved below). -/
def step_loop (c : Caps) : Nat → State → Nat → State × Nat
  | 0, s, i => (s, i)
  | fuel + 1, s, i =>
    match take_interrupt s.interrupts_pending s.sr with
    | none => (s, i)
    | some t => step_loop c fuel (take_trap c s t) (i + 1)

/-- `processor_t::step` (lines 133–202) with a zero instruction budget: a
non-running processor returns unchanged; otherwise the interrupt check
runs (delivering at most one trap), no instruction executes, and the
counter/timer epilogue commits the trap count. -/
def step0 (c : Caps) (s : State) : State :=
  if s.run then
    let r := step_loop c 2 s 0
    timer_upd r.1 r.2
  else
    s

/-! ### Helper lemmas -/

theorem and_lt_left {x : Nat} {n : Nat} (h : x < 2 ^ n) (y : Nat) :
    x &&& y < 2 ^ n := by
  rw [Nat.and_comm]
  exact Nat.and_lt_two_pow y h

theorem and_two_pow_eq_zero_iff (x k : Nat) :
    x &&& 2 ^ k = 0 ↔ x.testBit k = false := by
  rw [Nat.and_two_pow]
  cases h : x.testBit k <;> simp [h]

theorem and_two_pow_ne_zero_iff (x k : Nat) :
    x &&& 2 ^ k ≠ 0 ↔ x.testBit k = true := by
  rw [Nat.and_two_pow]
  cases h : x.testBit k <;> simp [h]

theorem not32_SR_ZERO_eq : NOT32 SR_ZERO = 2 ^ 17 - 1 := by decide

theorem sr_store_lt (c : Caps) (v : Nat) : sr_store c v < 2 ^ 17 := by
  have base : v &&& NOT32 SR_ZERO < 2 ^ 17 := by
    rw [not32_SR_ZERO_eq]
    exact Nat.and_lt_two_pow v (by norm_num)
  obtain ⟨e, f, r, w⟩ := c
  cases e <;> cases f <;> cases r <;> cases w <;>
    simp only [sr_store, Bool.false_eq_true, if_false, if_true] <;>
    (repeat first
      | exact base
      | apply and_lt_left)

theorem sr_store_testBit0 (c : Caps) (v : Nat) :
    (sr_store c v).testBit 0 = v.testBit 0 := by
  obtain ⟨e, f, r, w⟩ := c
  cases hv : v.testBit 0 <;>
    cases e <;> cases f <;> cases r <;> cases w <;>
      simp [sr_store, Nat.testBit_and, hv, -Nat.testBit_zero] <;> decide

theorem sr_store_testBit4 (c : Caps) (v : Nat) :
    (sr_store c v).testBit 4 = v.testBit 4 := by
  obtain ⟨e, f, r, w⟩ := c
  cases hv : v.testBit 4 <;>
    cases e <;> cases f <;> cases r <;> cases w <;>
      simp [sr_store, Nat.testBit_and, hv] <;> decide

theorem sr_store_testBit5 (c : Caps) (v : Nat) :
    (sr_store c v).testBit 5 = v.testBit 5 := by
  obtain ⟨e, f, r, w⟩ := c
  cases hv : v.testBit 5 <;>
    cases e <;> cases f <;> cases r <;> cases w <;>
      simp [sr_store, Nat.testBit_and, hv] <;> decide

theorem sr_store_testBit1 (c : Caps) (v : Nat) :
    (sr_store c v).testBit 1 = (v.testBit 1 && c.fpu) := by
  obtain ⟨e, f, r, w⟩ := c
  cases hv : v.testBit 1 <;>
    cases e <;> cases f <;> cases r <;> cases w <;>
      simp [sr_store, Nat.testBit_and, hv] <;> decide

theorem sr_store_testBit2 (c : Caps) (v : Nat) :
    (sr_store c v).testBit 2 = (v.testBit 2 && c.vec) := by
  obtain ⟨e, f, r, w⟩ := c
  cases hv : v.testBit 2 <;>
    cases e <;> cases f <;> cases r <;> cases w <;>
      simp [sr_store, Nat.testBit_and, hv] <;> decide

theorem sr_store_testBit3 (c : Caps) (v : Nat) :
    (sr_store c v).testBit 3 = (v.testBit 3 && c.rvc) := by
  obtain ⟨e, f, r, w⟩ := c
  cases hv : v.testBit 3 <;>
    cases e <;> cases f <;> cases r <;> cases w <;>
      simp [sr_store, Nat.testBit_and, hv] <;> decide

theorem sr_store_testBit6 (c : Caps) (v : Nat) :
    (sr_store c v).testBit 6 = (v.testBit 6 && c.ext64) := by
  obtain ⟨e, f, r, w⟩ := c
  cases hv : v.testBit 6 <;>
    cases e <;> cases f <;> cases r <;> cases w <;>
      simp [sr_store, Nat.testBit_and, hv] <;> decide

theorem sr_store_testBit7 (c : Caps) (v : Nat) :
    (sr_store c v).testBit 7 = (v.testBit 7 && c.ext64) := by
  obtain ⟨e, f, r, w⟩ := c
  cases hv : v.testBit 7 <;>
    cases e <;> cases f <;> cases r <;> cases w <;>
      simp [sr_store, Nat.testBit_and, hv] <;> decide

theorem sr_store_testBit16 (c : Caps) (v : Nat) :
    (sr_store c v).testBit 16 = v.testBit 16 := by
  obtain ⟨e, f, r, w⟩ := c
  cases hv : v.testBit 16 <;>
    cases e <;> cases f <;> cases r <;> cases w <;>
      simp [sr_store, Nat.testBit_and, hv] <;> decide

theorem lowBitF_spec (fuel : Nat) : ∀ n, n ≠ 0 → n < 2 ^ fuel →
    n.testBit (lowBitF fuel n) = true ∧
    ∀ j, j < lowBitF fuel n → n.testBit j = false := by
  induction fuel with
  | zero =>
    intro n hn hlt
    omega
  | succ fuel ih =>
    intro n hn hlt
    by_cases h1 : n % 2 = 1
    · simp [lowBitF, h1]
    · have h2 : n / 2 ≠ 0 := by omega
      have hlt2 : n / 2 < 2 ^ fuel := by
        have : 2 ^ (fuel + 1) = 2 ^ fuel * 2 := by ring
        omega
      obtain ⟨ihb, ihlow⟩ := ih (n / 2) h2 hlt2
      simp only [lowBitF, h1, if_false]
      constructor
      · rw [Nat.testBit_add_one]
        exact ihb
      · intro j hj
        match j with
        | 0 => simp [Nat.testBit_zero, h1]
        | j + 1 =>
          rw [Nat.testBit_add_one]
          exact ihlow j (by omega)

theorem lowBit_spec (n : Nat) (hn : n ≠ 0) :
    n.testBit (lowBit n) = true ∧ ∀ j, j < lowBit n → n.testBit j = false :=
  lowBitF_spec n n hn (Nat.lt_two_pow n)

theorem SR_ET_eq : SR_ET = 2 ^ 0 := rfl

theorem SR_EF_eq : SR_EF = 2 ^ 1 := rfl

theorem SR_EV_eq : SR_EV = 2 ^ 2 := rfl

theorem SR_EC_eq : SR_EC = 2 ^ 3 := rfl

theorem SR_PS_eq : SR_PS = 2 ^ 4 := rfl

theorem SR_S_eq : SR_S = 2 ^ 5 := rfl

theorem SR_UX_eq : SR_UX = 2 ^ 6 := rfl

theorem SR_SX_eq : SR_SX = 2 ^ 7 := rfl

theorem SR_VM_eq : SR_VM = 2 ^ 16 := rfl

/-- Bits of `SR_ZERO` below 17 are clear and a number below `2 ^ 17`
has no bit in common with `SR_ZERO`. -/
theorem and_SR_ZERO_eq_zero {x : Nat} (h : x < 2 ^ 17) : x &&& SR_ZERO = 0 := by
  apply Nat.eq_of_testBit_eq
  intro k
  simp only [Nat.testBit_and, Nat.zero_testBit]
  rcases Nat.lt_or_ge k 17 with hk | hk
  · have hz : SR_ZERO.testBit k = false := by
      have h1 : SR_ZERO = (2 ^ 32 - 1) ^^^ (2 ^ 17 - 1) := by decide
      have hk32 : k < 32 := by omega
      rw [h1, Nat.testBit_xor, Nat.testBit_two_pow_sub_one,
        Nat.testBit_two_pow_sub_one]
      simp [hk, hk32]
    simp [hz]
  · have hx : x.testBit k = false :=
      Nat.testBit_lt_two_pow
        (Nat.lt_of_lt_of_le h (Nat.pow_le_pow_right (by norm_num) hk))
    simp [hx]

/-- The status value written by `take_trap` (line 211 of processor.cc). -/
def trap_sr_val (x : Nat) : Nat :=
  (((x &&& NOT32 SR_ET) ||| SR_S) &&& NOT32 SR_PS) |||
    (if x &&& SR_S ≠ 0 then SR_PS else 0)

theorem take_trap_sr_eq (c : Caps) (s : State) (t : Nat) :
    (take_trap c s t).sr = sr_store c (trap_sr_val s.sr) := rfl

theorem trap_sr_val_testBit0 (x : Nat) : (trap_sr_val x).testBit 0 = false := by
  by_cases h : x &&& SR_S ≠ 0 <;>
    cases hv : x.testBit 0 <;>
      simp [trap_sr_val, h, Nat.testBit_and, Nat.testBit_or, hv,
        -Nat.testBit_zero] <;> decide

theorem trap_sr_val_testBit5 (x : Nat) : (trap_sr_val x).testBit 5 = true := by
  by_cases h : x &&& SR_S ≠ 0 <;>
    cases hv : x.testBit 5 <;>
      simp [trap_sr_val, h, Nat.testBit_and, Nat.testBit_or, hv] <;> decide

theorem trap_sr_val_testBit4 (x : Nat) :
    (trap_sr_val x).testBit 4 = decide (x &&& SR_S ≠ 0) := by
  by_cases h : x &&& SR_S ≠ 0 <;>
    cases hv : x.testBit 4 <;>
      simp [trap_sr_val, h, Nat.testBit_and, Nat.testBit_or, hv] <;> decide

theorem take_trap_S_set (c : Caps) (s : State) (t : Nat) :
    (take_trap c s t).sr &&& SR_S ≠ 0 := by
  rw [take_trap_sr_eq, SR_S_eq, and_two_pow_ne_zero_iff,
    sr_store_testBit5]
  exact trap_sr_val_testBit5 s.sr

theorem take_trap_ET_clear (c : Caps) (s : State) (t : Nat) :
    (take_trap c s t).sr &&& SR_ET = 0 := by
  rw [take_trap_sr_eq, SR_ET_eq, and_two_pow_eq_zero_iff,
    sr_store_testBit0]
  exact trap_sr_val_testBit0 s.sr

theorem take_trap_PS_iff (c : Caps) (s : State) (t : Nat) :
    ((take_trap c s t).sr &&& SR_PS ≠ 0 ↔ s.sr &&& SR_S ≠ 0) := by
  rw [take_trap_sr_eq, SR_PS_eq, and_two_pow_ne_zero_iff,
    sr_store_testBit4, trap_sr_val_testBit4]
  by_cases h : s.sr &&& SR_S ≠ 0 <;> simp [h]

/-- An interrupt check on a status word with traps disabled never signals. -/
theorem take_interrupt_of_ET_zero (p sr : Nat) (h : sr &&& SR_ET = 0) :
    take_interrupt p sr = none := by
  simp [take_interrupt, h]

/-- A loop iteration whose interrupt check signals nothing stops at once. -/
theorem step_loop_of_none (c : Caps) (fuel : Nat) (s : State) (i : Nat)
    (h : take_interrupt s.interrupts_pending s.sr = none) :
    step_loop c fuel s i = (s, i) := by
  cases fuel with
  | zero => rfl
  | succ fuel => simp [step_loop, h]

/-- Consistency of the cached register width with the stored mode bits. -/
def xprlenOK (s : State) : Prop :=
  s.xprlen =
    if (s.sr &&& SR_S ≠ 0 ∧ s.sr &&& SR_SX ≠ 0) ∨
        (s.sr &&& SR_S = 0 ∧ s.sr &&& SR_UX ≠ 0) then 64 else 32

theorem xok_set_sr (c : Caps) (s : State) (v : Nat) :
    xprlenOK (set_sr c s v) := by
  by_cases hP : sr_store c v &&& SR_S = 0 <;>
    by_cases ha : sr_store c v &&& SR_SX = 0 <;>
      by_cases hb : sr_store c v &&& SR_UX = 0 <;>
        simp [set_sr, xprlenOK, hP, ha, hb]

theorem xok_reset (c : Caps) (s : State) : xprlenOK (reset c s) :=
  xok_set_sr c { s with run := false } (SR_S ||| SR_SX ||| SR_ET ||| SR_IM)

theorem xok_take_trap (c : Caps) (s : State) (t : Nat) :
    xprlenOK (take_trap c s t) :=
  xok_set_sr c s (trap_sr_val s.sr)

theorem xok_step_loop (c : Caps) (fuel : Nat) (s : State) (i : Nat)
    (h : xprlenOK s) : xprlenOK (step_loop c fuel s i).1 := by
  induction fuel generalizing s i with
  | zero => exact h
  | succ fuel ih =>
    simp only [step_loop]
    cases hti : take_interrupt s.interrupts_pending s.sr with
    | none => exact h
    | some t => exact ih (take_trap c s t) (i + 1) (xok_take_trap c s t)

theorem xok_step0 (c : Caps) (s : State) (h : xprlenOK s) :
    xprlenOK (step0 c s) := by
  unfold step0
  by_cases hr : s.run = true
  · simp only [hr, if_true]
    exact xok_step_loop c 2 s 0 h
  · simp only [hr, if_false]
    exact h

/-- A fully zeroed processor state, used as a concrete base point. -/
def initState : State where
  pc := 0
  epc := 0
  badvaddr := 0
  evec := 0
  cause := 0
  pcr_k0 := 0
  pcr_k1 := 0
  sr := 0
  fsr := 0
  count := 0
  compare := 0
  interrupts_pending := 0
  cycle := 0
  run := false
  xprlen := 32
  XPR := fun _ => 0
  FPR := fun _ => 0
  vecbanks := 0
  vecbanks_count := 0
  vlmax := 0
  vl := 0
  nxfpr_bank := 0
  nxpr_use := 0
  nfpr_use := 0
  utidx := 0
  mmu_vm_enabled := false
  mmu_supervisor := false
  mmu_badvaddr := 0

/-! ### Claim theorems -/

/-- C1: for every trap signal delivered via `take_trap`, afterwards the
status word has the supervisor bit set and the traps-enabled bit clear,
the previous-supervisor bit equals the supervisor bit before delivery,
`cause` equals the signal's code, `epc` equals the program counter at the
moment of delivery, `pc` equals the trap vector base `evec`, and
`badvaddr` equals the fault address reported by the MMU. -/
theorem c1_take_trap_delivery (c : Caps) (s : State) (t : Nat) :
    (take_trap c s t).sr &&& SR_S ≠ 0 ∧
    (take_trap c s t).sr &&& SR_ET = 0 ∧
    ((take_trap c s t).sr &&& SR_PS ≠ 0 ↔ s.sr &&& SR_S ≠ 0) ∧
    (take_trap c s t).cause = t ∧
    (take_trap c s t).epc = s.pc ∧
    (take_trap c s t).pc = s.evec ∧
    (take_trap c s t).badvaddr = s.mmu_badvaddr :=
  ⟨take_trap_S_set c s t, take_trap_ET_clear c s t, take_trap_PS_iff c s t,
    rfl, rfl, rfl, rfl⟩

/-- C3: every status-word write through `set_sr` clears all reserved-zero
bits in the stored value, and for every extension the build configuration
does not support (64-bit, floating point, compressed, vector) the
corresponding enable bits are zero in the stored value, for every written
value. -/
theorem c3_set_sr_unsupported_bits_zero (c : Caps) (s : State) (v : Nat) :
    (set_sr c s v).sr &&& SR_ZERO = 0 ∧
    (c.ext64 = false → (set_sr c s v).sr &&& (SR_SX ||| SR_UX) = 0) ∧
    (c.fpu = false → (set_sr c s v).sr &&& SR_EF = 0) ∧
    (c.rvc = false → (set_sr c s v).sr &&& SR_EC = 0) ∧
    (c.vec = false → (set_sr c s v).sr &&& SR_EV = 0) := by
  have hsr : (set_sr c s v).sr = sr_store c v := rfl
  rw [hsr]
  refine ⟨and_SR_ZERO_eq_zero (sr_store_lt c v), ?_, ?_, ?_, ?_⟩
  · intro h
    rw [SR_SX_eq, SR_UX_eq, Nat.and_or_distrib_left]
    rw [(and_two_pow_eq_zero_iff _ 7).mpr (by rw [sr_store_testBit7, h]; simp)]
    rw [(and_two_pow_eq_zero_iff _ 6).mpr (by rw [sr_store_testBit6, h]; simp)]
    rfl
  · intro h
    rw [SR_EF_eq, and_two_pow_eq_zero_iff, sr_store_testBit1, h]
    simp
  · intro h
    rw [SR_EC_eq, and_two_pow_eq_zero_iff, sr_store_testBit3, h]
    simp
  · intro h
    rw [SR_EV_eq, and_two_pow_eq_zero_iff, sr_store_testBit2, h]
    simp

theorem c3_set_sr_unsupported_bits_zero_witness :
    (set_sr ⟨false, false, false, false⟩ initState 0xFFFFFFFF).sr &&& SR_ZERO = 0 ∧
    (set_sr ⟨false, false, false, false⟩ initState 0xFFFFFFFF).sr &&& (SR_SX ||| SR_UX) = 0 ∧
    (set_sr ⟨false, false, false, false⟩ initState 0xFFFFFFFF).sr &&& SR_EF = 0 ∧
    (set_sr ⟨false, false, false, false⟩ initState 0xFFFFFFFF).sr &&& SR_EC = 0 ∧
    (set_sr ⟨false, false, false, false⟩ initState 0xFFFFFFFF).sr &&& SR_EV = 0 := by
  have h := c3_set_sr_unsupported_bits_zero ⟨false, false, false, false⟩
    initState 0xFFFFFFFF
  exact ⟨h.1, h.2.1 rfl, h.2.2.1 rfl, h.2.2.2.1 rfl, h.2.2.2.2 rfl⟩

/-- C4: immediately after every `set_sr` write, `xprlen` is 64 exactly
when (supervisor set and 64-bit-supervisor set) or (supervisor clear and
64-bit-user set) in the stored status word, else 32, and every modelled
operation leaves `xprlen` consistent with the current status-word mode
bits. -/
theorem c4_xprlen_consistent (c : Caps) (s : State) (v t : Nat) (x : Int)
    (i : Nat) :
    xprlenOK (set_sr c s v) ∧
    xprlenOK (reset c s) ∧
    xprlenOK (take_trap c s t) ∧
    (xprlenOK s →
      xprlenOK (set_fsr s v) ∧ xprlenOK (setvl s x) ∧ xprlenOK (vcfg s) ∧
      xprlenOK (deliver_ipi s) ∧ xprlenOK (timer_upd s i) ∧
      xprlenOK (step0 c s)) := by
  refine ⟨xok_set_sr c s v, xok_reset c s, xok_take_trap c s t, fun h => ?_⟩
  exact ⟨h, h, h, h, h, xok_step0 c s h⟩

theorem c4_xprlen_consistent_witness :
    xprlenOK (set_sr ⟨true, true, true, true⟩ initState 0xFFA1) ∧
    xprlenOK (setvl initState 5) ∧ xprlenOK (step0 ⟨true, true, true, true⟩ initState) := by
  have h := c4_xprlen_consistent ⟨true, true, true, true⟩ initState 0xFFA1 0 5 0
  have hOK : xprlenOK initState := by simp [xprlenOK, initState]
  exact ⟨h.1, (h.2.2.2 hOK).2.1, (h.2.2.2 hOK).2.2.2.2.2⟩

/-- C9: trap delivery clears the traps-enabled bit, so the retried
interrupt check right after a delivered trap can never signal a second
interrupt trap, whatever is pending; consequently the zero-budget
stepping loop delivers at most one trap per invocation. -/
theorem c9_one_interrupt_trap_per_step (c : Caps) (s : State) (t p : Nat)
    (fuel : Nat) :
    (take_trap c s t).sr &&& SR_ET = 0 ∧
    take_interrupt p (take_trap c s t).sr = none ∧
    (step_loop c fuel s 0).2 ≤ 1 := by
  refine ⟨take_trap_ET_clear c s t, take_interrupt_of_ET_zero p _
    (take_trap_ET_clear c s t), ?_⟩
  cases fuel with
  | zero => exact Nat.zero_le 1
  | succ fuel =>
    simp only [step_loop]
    cases hti : take_interrupt s.interrupts_pending s.sr with
    | none => exact Nat.zero_le 1
    | some t2 =>
      show (step_loop c fuel (take_trap c s t2) (0 + 1)).2 ≤ 1
      rw [step_loop_of_none c fuel _ (0 + 1) (take_interrupt_of_ET_zero _ _
        (take_trap_ET_clear c s t2))]

/-- C2: the interrupt check signals exactly when some unmasked interrupt
is pending while traps are enabled, and the signalled code is the
base-interrupt-code plus the index of the lowest-numbered asserted
unmasked line (it is a priority encoder); otherwise no signal is
produced (the source function mutates no state). -/
theorem c2_take_interrupt_encoder (p sr : Nat) :
    ((∃ t, take_interrupt p sr = some t) ↔
      p &&& ((sr &&& SR_IM) >>> SR_IM_SHIFT) ≠ 0 ∧ sr &&& SR_ET ≠ 0) ∧
    (p &&& ((sr &&& SR_IM) >>> SR_IM_SHIFT) ≠ 0 → sr &&& SR_ET ≠ 0 →
      take_interrupt p sr =
        some (trap_irq0 + lowBit (p &&& ((sr &&& SR_IM) >>> SR_IM_SHIFT))) ∧
      (p &&& ((sr &&& SR_IM) >>> SR_IM_SHIFT)).testBit
        (lowBit (p &&& ((sr &&& SR_IM) >>> SR_IM_SHIFT))) = true ∧
      ∀ j, j < lowBit (p &&& ((sr &&& SR_IM) >>> SR_IM_SHIFT)) →
        (p &&& ((sr &&& SR_IM) >>> SR_IM_SHIFT)).testBit j = false) := by
  have hti : take_interrupt p sr =
      if p &&& ((sr &&& SR_IM) >>> SR_IM_SHIFT) ≠ 0 ∧ sr &&& SR_ET ≠ 0 then
        some (trap_irq0 + lowBit (p &&& ((sr &&& SR_IM) >>> SR_IM_SHIFT)))
      else none := rfl
  by_cases h : p &&& ((sr &&& SR_IM) >>> SR_IM_SHIFT) ≠ 0 ∧ sr &&& SR_ET ≠ 0
  · rw [hti, if_pos h]
    obtain ⟨hb, hlow⟩ := lowBit_spec _ h.1
    exact ⟨⟨fun _ => h, fun _ => ⟨_, rfl⟩⟩, fun _ _ => ⟨rfl, hb, hlow⟩⟩
  · rw [hti, if_neg h]
    refine ⟨⟨?_, fun hc => absurd hc h⟩, fun h1 h2 => absurd ⟨h1, h2⟩ h⟩
    rintro ⟨t, ht⟩
    exact absurd ht (by simp)

theorem c2_take_interrupt_encoder_witness :
    take_interrupt 2 0xFF01 = some (trap_irq0 + 1) ∧
    take_interrupt 8 0xFF01 = some (trap_irq0 + 3) := by
  have h1 := (c2_take_interrupt_encoder 2 0xFF01).2 (by decide) (by decide)
  have h2 := (c2_take_interrupt_encoder 8 0xFF01).2 (by decide) (by decide)
  refine ⟨?_, ?_⟩
  · rw [h1.1]
    decide
  · rw [h2.1]
    decide

/-- C5 counterexample: after reset the program counter is 0, not the boot
address 0x2000 the trap vector is set to, so it does not equal the trap
vector base; the source instead reaches the boot address by enabling
traps and letting the boot IPI vector the pc to `evec`. -/
theorem c5_counterexample :
    (reset ⟨true, true, true, true⟩ initState).pc = 0 ∧
    (reset ⟨true, true, true, true⟩ initState).evec = 0x2000 ∧
    (reset ⟨true, true, true, true⟩ initState).pc ≠
      (reset ⟨true, true, true, true⟩ initState).evec :=
  ⟨rfl, rfl, by decide⟩

/-- C5 (amended): after reset — at construction or after a halt signal,
both of which invoke `reset` — the processor state is the power-on state:
pc is 0 while the trap vector base is the boot address 0x2000 (the boot
address is reached only when the boot IPI trap vectors the pc to `evec`),
the status word has supervisor mode and traps enabled with virtual memory
disabled, all integer and floating-point registers are zero, and the run
flag is false. -/
theorem c5_reset_state (c : Caps) (s : State) :
    (reset c s).run = false ∧
    (reset c s).pc = 0 ∧
    (reset c s).evec = 0x2000 ∧
    (reset c s).sr &&& SR_S ≠ 0 ∧
    (reset c s).sr &&& SR_ET ≠ 0 ∧
    (reset c s).sr &&& SR_VM = 0 ∧
    (∀ i, (reset c s).XPR i = 0) ∧
    (∀ i, (reset c s).FPR i = 0) := by
  have hsr : (reset c s).sr = sr_store c (SR_S ||| SR_SX ||| SR_ET ||| SR_IM) :=
    rfl
  refine ⟨rfl, rfl, rfl, ?_, ?_, ?_, fun i => rfl, fun i => rfl⟩
  · rw [hsr, SR_S_eq, and_two_pow_ne_zero_iff, sr_store_testBit5]
    decide
  · rw [hsr, SR_ET_eq, and_two_pow_ne_zero_iff, sr_store_testBit0]
    decide
  · rw [hsr, SR_VM_eq, and_two_pow_eq_zero_iff, sr_store_testBit16]
    decide

/-- Concrete state exhibiting the timer-counter wraparound. -/
def c6state : State := { initState with count := 5, compare := 10 }

/-- C6 counterexample: when a step call executes 2^32 instructions the
32-bit counter wraps back below the compare threshold, so the very next
step call crosses the threshold and asserts the timer line again even
though compare was never reprogrammed. -/
theorem c6_counterexample :
    timer_fires c6state.count c6state.compare (2 ^ 32) ∧
    (timer_upd c6state (2 ^ 32)).compare = c6state.compare ∧
    (timer_upd c6state (2 ^ 32)).count = 5 ∧
    timer_fires (timer_upd c6state (2 ^ 32)).count
      (timer_upd c6state (2 ^ 32)).compare 10 := by
  refine ⟨by decide, rfl, by decide, by decide⟩

/-- C6 (amended): provided the 32-bit instruction counter does not wrap
during the call (old count + i < 2^32), the timer interrupt line is
asserted exactly when the previous counter value was strictly below the
compare threshold and the value after adding i is at or above it, and a
subsequent step call that advances the counter further without compare
being reprogrammed never asserts the timer line again. -/
theorem c6_timer_edge (s : State) (i j : Nat) (h : s.count + i < 2 ^ 32) :
    (timer_fires s.count s.compare i ↔
      s.count < s.compare ∧ s.compare ≤ s.count + i) ∧
    (timer_upd s i).count = s.count + i ∧
    (timer_upd s i).compare = s.compare ∧
    ((timer_upd s i).interrupts_pending =
      if timer_fires s.count s.compare i then
        s.interrupts_pending ||| (1 <<< TIMER_IRQ)
      else s.interrupts_pending) ∧
    (timer_fires s.count s.compare i →
      ¬ timer_fires (timer_upd s i).count (timer_upd s i).compare j ∧
      (timer_upd (timer_upd s i) j).interrupts_pending =
        (timer_upd s i).interrupts_pending) := by
  have h64 : (s.count + i) % 2 ^ 64 = s.count + i :=
    Nat.mod_eq_of_lt (by omega)
  have h32 : (s.count + i) % 2 ^ 32 = s.count + i := Nat.mod_eq_of_lt h
  have hcount : (timer_upd s i).count = s.count + i := h32
  have hiff : timer_fires s.count s.compare i ↔
      s.count < s.compare ∧ s.compare ≤ s.count + i := by
    unfold timer_fires
    rw [h64]
  refine ⟨hiff, hcount, rfl, rfl, fun hf => ?_⟩
  have hge : s.compare ≤ s.count + i := (hiff.mp hf).2
  have hnot : ¬ timer_fires (timer_upd s i).count (timer_upd s i).compare j := by
    unfold timer_fires
    rw [hcount]
    show ¬ (s.count + i < s.compare ∧ _)
    omega
  refine ⟨hnot, ?_⟩
  show (if timer_fires (timer_upd s i).count (timer_upd s i).compare j
    then _ else (timer_upd s i).interrupts_pending) = _
  rw [if_neg hnot]

theorem c6_timer_edge_witness :
    timer_fires 3 10 10 ∧
    ¬ timer_fires (timer_upd { initState with count := 3, compare := 10 } 10).count
      (timer_upd { initState with count := 3, compare := 10 } 10).compare 5 := by
  have h := c6_timer_edge { initState with count := 3, compare := 10 } 10 5
    (by decide)
  exact ⟨by decide, (h.2.2.2.2 (by decide)).1⟩

/-- Concrete state on which `vcfg` shrinks `vlmax` below the current `vl`. -/
def c7state : State :=
  { initState with
    vl := 32
    vlmax := 32
    nxfpr_bank := 256
    vecbanks_count := 8
    nxpr_use := 256
    nfpr_use := 0 }

/-- C7 counterexample: from a state satisfying vl ≤ vlmax, `vcfg` with a
large per-element register demand recomputes vlmax to 8 but leaves vl at
32, so `vcfg` does leave a state with vl > vlmax. -/
theorem c7_counterexample :
    c7state.vl ≤ c7state.vlmax ∧
    ¬ (vcfg c7state).vl ≤ (vcfg c7state).vlmax := by
  decide

/-- C7 (amended): `setvl` never produces vl > vlmax for any argument
(including negative or oversized ones) and leaves vlmax unchanged, and
`vcfg` always produces vlmax ≤ the microthread-count ceiling; but `vcfg`
does not modify vl, so it preserves vl ≤ vlmax only when the recomputed
vlmax is at least the current vl. -/
theorem c7_vl_bounds (s : State) (x : Int) :
    (setvl s x).vl ≤ (setvl s x).vlmax ∧
    (setvl s x).vlmax = s.vlmax ∧
    (vcfg s).vlmax ≤ (MAX_UTS : Int) ∧
    (vcfg s).vl = s.vl ∧
    (s.vl ≤ (vcfg s).vlmax → (vcfg s).vl ≤ (vcfg s).vlmax) :=
  ⟨min_le_left _ _, rfl, min_le_right _ _, rfl, fun h => h⟩

theorem c7_vl_bounds_witness :
    (setvl initState 99).vl ≤ (setvl initState 99).vlmax ∧
    (vcfg initState).vl ≤ (vcfg initState).vlmax := by
  have h := c7_vl_bounds initState 99
  exact ⟨h.1, h.2.2.2.2 (by decide)⟩

/-- Concrete state on which the unclamped bank formula exceeds the
microthread ceiling. -/
def c8state : State :=
  { initState with
    nxfpr_bank := 2049
    vecbanks_count := 1
    nxpr_use := 0
    nfpr_use := 0 }

/-- C8 counterexample: with demand below 2 and registers_per_bank ×
bank_count = 2049 above the microthread ceiling 2048, `vcfg` produces the
clamped value 2048, not the product the claim's formula requires. -/
theorem c8_counterexample :
    (vcfg c8state).vlmax ≠
      Int.ofNat (c8state.nxfpr_bank * c8state.vecbanks_count) := by
  decide

/-- C8 (amended): the vlmax computed by `vcfg` equals the bank formula
(registers_per_bank × bank_count for demand below 2, truncating division
by demand − 1 otherwise) clamped to the microthread-count ceiling; it is
always at most the ceiling and is monotonically non-increasing as the
combined demand grows for fixed bank parameters. -/
theorem c8_vcfg_formula (s u : State)
    (hb : s.nxfpr_bank = u.nxfpr_bank)
    (hc : s.vecbanks_count = u.vecbanks_count)
    (hd : s.nxpr_use + s.nfpr_use ≤ u.nxpr_use + u.nfpr_use) :
    (vcfg s).vlmax =
      min (Int.ofNat (if s.nxpr_use + s.nfpr_use < 2 then
          s.nxfpr_bank * s.vecbanks_count
        else (s.nxfpr_bank / (s.nxpr_use + s.nfpr_use - 1)) * s.vecbanks_count))
        (Int.ofNat MAX_UTS) ∧
    (vcfg s).vlmax ≤ (MAX_UTS : Int) ∧
    (vcfg u).vlmax ≤ (vcfg s).vlmax := by
  refine ⟨rfl, min_le_right _ _, ?_⟩
  have key : (if u.nxpr_use + u.nfpr_use < 2 then
        u.nxfpr_bank * u.vecbanks_count
      else (u.nxfpr_bank / (u.nxpr_use + u.nfpr_use - 1)) * u.vecbanks_count) ≤
      (if s.nxpr_use + s.nfpr_use < 2 then
        s.nxfpr_bank * s.vecbanks_count
      else (s.nxfpr_bank / (s.nxpr_use + s.nfpr_use - 1)) * s.vecbanks_count) := by
    rw [← hb, ← hc]
    by_cases h1 : s.nxpr_use + s.nfpr_use < 2
    · by_cases h2 : u.nxpr_use + u.nfpr_use < 2
      · rw [if_pos h1, if_pos h2]
      · rw [if_pos h1, if_neg h2]
        exact Nat.mul_le_mul_right _ (Nat.div_le_self _ _)
    · have h2 : ¬ u.nxpr_use + u.nfpr_use < 2 := by omega
      rw [if_neg h1, if_neg h2]
      refine Nat.mul_le_mul_right _ (Nat.div_le_div_left ?_ ?_) <;> omega
  exact min_le_min (Int.ofNat_le.mpr key) (le_refl _)

theorem c8_vcfg_formula_witness :
    (vcfg c6state).vlmax ≤ (MAX_UTS : Int) ∧
    (vcfg c6state).vlmax ≤ (vcfg c6state).vlmax := by
  have h := c8_vcfg_formula c6state c6state rfl rfl (le_refl _)
  exact ⟨h.2.1, h.2.2⟩

/-- C10: a zero-budget step on a running processor still performs the
interrupt check: when it signals, the trap is delivered (supervisor mode
entered, traps disabled, cause recorded, epc saved, pc vectored) even
though zero instructions execute; when it does not signal, pc, both
counters, the pending word and all registers are left unchanged. -/
theorem c10_step0_interrupt_check (c : Caps) (s : State)
    (hrun : s.run = true) (hcount : s.count < 2 ^ 32)
    (hcycle : s.cycle < 2 ^ 64) :
    (∀ t, take_interrupt s.interrupts_pending s.sr = some t →
      (step0 c s).cause = t ∧ (step0 c s).epc = s.pc ∧
      (step0 c s).pc = s.evec ∧ (step0 c s).sr &&& SR_S ≠ 0 ∧
      (step0 c s).sr &&& SR_ET = 0) ∧
    (take_interrupt s.interrupts_pending s.sr = none →
      (step0 c s).pc = s.pc ∧ (step0 c s).count = s.count ∧
      (step0 c s).cycle = s.cycle ∧
      (step0 c s).interrupts_pending = s.interrupts_pending ∧
      (step0 c s).XPR = s.XPR ∧ (step0 c s).FPR = s.FPR) := by
  constructor
  · intro t ht
    have hloop : step_loop c 2 s 0 = (take_trap c s t, 1) := by
      show (match take_interrupt s.interrupts_pending s.sr with
        | none => (s, 0)
        | some t2 => step_loop c 1 (take_trap c s t2) (0 + 1)) = _
      rw [ht]
      exact step_loop_of_none c 1 _ (0 + 1)
        (take_interrupt_of_ET_zero _ _ (take_trap_ET_clear c s t))
    have hs0 : step0 c s = timer_upd (take_trap c s t) 1 := by
      unfold step0
      rw [if_pos hrun, hloop]
    rw [hs0]
    exact ⟨rfl, rfl, rfl, take_trap_S_set c s t, take_trap_ET_clear c s t⟩
  · intro ht
    have hloop : step_loop c 2 s 0 = (s, 0) := step_loop_of_none c 2 s 0 ht
    have hs0 : step0 c s = timer_upd s 0 := by
      unfold step0
      rw [if_pos hrun, hloop]
    have hfire : ¬ timer_fires s.count s.compare 0 := by
      unfold timer_fires
      rw [Nat.mod_eq_of_lt (show s.count + 0 < 2 ^ 64 by omega)]
      omega
    rw [hs0]
    refine ⟨rfl, ?_, ?_, ?_, rfl, rfl⟩
    · show (s.count + 0) % 2 ^ 32 = s.count
      omega
    · show (s.cycle + 0) % 2 ^ 64 = s.cycle
      omega
    · show (if timer_fires s.count s.compare 0 then _ else
        s.interrupts_pending) = s.interrupts_pending
      rw [if_neg hfire]

/-- Concrete running state with interrupt line 6 pending and unmasked. -/
def c10state : State :=
  { initState with run := true, interrupts_pending := 64, sr := 0xFF01 }

theorem c10_step0_interrupt_check_witness :
    (step0 ⟨true, true, true, true⟩ c10state).cause = trap_irq0 + 6 ∧
    (step0 ⟨true, true, true, true⟩ c10state).pc = c10state.evec := by
  have h := c10_step0_interrupt_check ⟨true, true, true, true⟩ c10state rfl
    (by decide) (by decide)
  have ht : take_interrupt c10state.interrupts_pending c10state.sr =
      some (trap_irq0 + 6) := by decide
  exact ⟨(h.1 _ ht).1, (h.1 _ ht).2.2.1⟩

end Riscv
